import Mathlib

/-!
Verification of the Aadhaar QR scanner (src/scanner.js).

Part 1 — identity extraction (`extractAadhaarNumber`, lines 162-179 of the
source) together with the four regular expressions of `aadhaarPatterns`
(lines 12-17):

    /AADHAAR:(\d{12})/i
    /UID:(\d{12})/i
    /(\d{4}\s?\d{4}\s?\d{4})/
    /^(\d{12})$/

Strings are modelled as `List Char`.  Each regex is embedded as a matcher
that attempts the pattern at the head of a list; the unanchored patterns
are then scanned left to right over all start positions (`findFirst`),
which is exactly the semantics of JavaScript `String.prototype.match`
without the `g` flag: the leftmost match wins and `match[1]` is the first
capture group.

Part 2 — the session controller (camera lifecycle, decode callbacks, UI
status), embedded as explicit state passing over a `SessionState` record.
-/

/-- JavaScript `\d`, i.e. the characters `0`-`9` (code points 48-57). -/
def isDigitCh (c : Char) : Bool :=
  48 ≤ c.toNat && c.toNat ≤ 57

/-- JavaScript `\s` restricted to the ASCII whitespace characters
(space, tab, line feed, vertical tab, form feed, carriage return). -/
def isWs (c : Char) : Bool :=
  c.toNat == 32 || c.toNat == 9 || c.toNat == 10 ||
  c.toNat == 11 || c.toNat == 12 || c.toNat == 13

/-- Case folding used to model the `/i` flag: uppercase ASCII letters map to
their lowercase counterparts, every other character is unchanged. -/
def foldCase (c : Char) : Char :=
  if 65 ≤ c.toNat && c.toNat ≤ 90 then Char.ofNat (c.toNat + 32) else c

/-- Consume `pat` case-insensitively at the head of the input, returning the
rest of the input.  Used for the literal label parts `AADHAAR:` and `UID:`
of the first two patterns (the `/i` flag folds both sides). -/
def stripLabelCI : List Char → List Char → Option (List Char)
  | [], l => some l
  | _ :: _, [] => none
  | p :: ps, c :: cs =>
    if foldCase c = foldCase p then stripLabelCI ps cs else none

/-- `\d{n}` at the head of the input: returns the digits read and the rest. -/
def matchDigits : Nat → List Char → Option (List Char × List Char)
  | 0, l => some ([], l)
  | _ + 1, [] => none
  | n + 1, c :: cs =>
    if isDigitCh c then
      match matchDigits n cs with
      | some (d, r) => some (c :: d, r)
      | none => none
    else none

/-- `\s?\d{n}` at the head of the input.  `\s?` is greedy: the whitespace
branch is tried first and the engine backtracks to the empty branch when the
following `\d{n}` fails (the backtrack necessarily fails too, because a
whitespace character is not a digit, but it is modelled faithfully). -/
def optWsDigits (n : Nat) (l : List Char) : Option (List Char × List Char) :=
  match l with
  | [] => matchDigits n []
  | c :: cs =>
    if isWs c then
      match matchDigits n cs with
      | some (d, r) => some (c :: d, r)
      | none => matchDigits n (c :: cs)
    else matchDigits n (c :: cs)

/-- `LABEL(\d{12})` attempted at the head of the input (`LABEL` compared
case-insensitively).  On success returns `(match[0], match[1])`: the full
matched text (original spelling of the label plus the digits) and the
capture group (the 12 digits). -/
def labelAt (pat : List Char) (l : List Char) : Option (List Char × List Char) :=
  match stripLabelCI pat l with
  | some r =>
    match matchDigits 12 r with
    | some (d, _) => some (l.take pat.length ++ d, d)
    | none => none
  | none => none

/-- `/AADHAAR:(\d{12})/i` attempted at the head of the input. -/
def p1At : List Char → Option (List Char × List Char) :=
  labelAt ("AADHAAR:".toList)

/-- `/UID:(\d{12})/i` attempted at the head of the input. -/
def p2At : List Char → Option (List Char × List Char) :=
  labelAt ("UID:".toList)

/-- `/(\d{4}\s?\d{4}\s?\d{4})/` attempted at the head of the input.  The
group is the whole match, so `match[0] = match[1]`. -/
def p3At (l : List Char) : Option (List Char × List Char) :=
  match matchDigits 4 l with
  | some (a, r1) =>
    match optWsDigits 4 r1 with
    | some (g1, r2) =>
      match optWsDigits 4 r2 with
      | some (g2, _) => some (a ++ g1 ++ g2, a ++ g1 ++ g2)
      | none => none
    | none => none
  | none => none

/-- `/^(\d{12})$/`: anchored at both ends, so it matches only when the whole
input is exactly 12 digits. -/
def p4Whole (l : List Char) : Option (List Char × List Char) :=
  match matchDigits 12 l with
  | some (d, r) => if r.isEmpty then some (d, d) else none
  | none => none

/-- Leftmost-match search for an unanchored pattern: try the matcher at
every start position, left to right, returning the first success.  This is
the search performed by `String.prototype.match`. -/
def findFirst (m : List Char → Option (List Char × List Char)) :
    List Char → Option (List Char × List Char)
  | [] => m []
  | c :: cs =>
    match m (c :: cs) with
    | some res => some res
    | none => findFirst m cs

/-- The loop body of `extractAadhaarNumber` for one pattern's match result:
`let aadhaar = match[1] || match[0]`, then `aadhaar.replace(/\D/g, '')`,
then accept iff `aadhaar.length === 12 && /^\d+$/.test(aadhaar)`. -/
def tryPattern (mr : Option (List Char × List Char)) : Option (List Char) :=
  match mr with
  | some (m0, m1) =>
    let aadhaar := if m1.isEmpty then m0 else m1
    let cleaned := aadhaar.filter isDigitCh
    if cleaned.length = 12 && (!cleaned.isEmpty && cleaned.all isDigitCh) then
      some cleaned
    else
      none
  | none => none

/-- `extractAadhaarNumber` (source lines 163-179): the four patterns of
`aadhaarPatterns` are tried in order; the first one whose cleaned capture
passes the 12-digit validation is returned; otherwise the next pattern is
tried; if none succeeds the result is `none` (the source's `null`). -/
def extractAadhaarNumber (qrText : List Char) : Option (List Char) :=
  match tryPattern (findFirst p1At qrText) with
  | some a => some a
  | none =>
    match tryPattern (findFirst p2At qrText) with
    | some a => some a
    | none =>
      match tryPattern (findFirst p3At qrText) with
      | some a => some a
      | none => tryPattern (p4Whole qrText)

/-!
Session controller model.  The `QRScanner` class fields together with the
DOM elements and `window` globals the methods touch are flattened into one
`SessionState` record.  External calls (`html5QrCode.start/stop`) can
succeed or throw; each is modelled by a boolean oracle parameter
(`startOk` / `stopOk`).  `setTimeout` callbacks are modelled as separate
step functions applied after the immediate effect.
-/

/-- The `type` argument of `updateStatus` (source lines 212-241). -/
inductive StatusType where
  | info
  | success
  | error
  | warning
  | loading
  | scanning
deriving DecidableEq, Repr

/-- Flattened state: `QRScanner` instance fields (present while
`scannerAlive`, i.e. while the global `qrScanner` is non-null), the DOM
elements the methods write to, and the `window.scanned*` globals. -/
structure SessionState where
  scannerAlive : Bool
  html5QrCode : Bool
  cameraStream : Bool
  scanTimer : Bool
  scanning : Bool
  cameraId : List Char
  qrModalVisible : Bool
  scanResultVisible : Bool
  errorVisible : Bool
  errorTitle : List Char
  errorMessage : List Char
  statusMessage : List Char
  statusType : StatusType
  scannedAadhaar : Option (List Char)
  scannedQRData : Option (List Char)
deriving DecidableEq, Repr

/-- `updateStatus(message, type)` (lines 212-241): rewrites the status line. -/
def updateStatus (message : List Char) (type : StatusType) (s : SessionState) :
    SessionState :=
  { s with statusMessage := message, statusType := type }

/-- `showError(title, message)` (lines 194-204): fills and shows the error
panel, then `updateStatus(title, 'error')`. -/
def showError (title message : List Char) (s : SessionState) : SessionState :=
  updateStatus title .error
    { s with errorTitle := title, errorMessage := message, errorVisible := true }

/-- `hideError()` (lines 207-209). -/
def hideError (s : SessionState) : SessionState :=
  { s with errorVisible := false }

/-- `startScanTimer()` (lines 244-252): starts the elapsed-time interval. -/
def startScanTimer (s : SessionState) : SessionState :=
  { s with scanTimer := true }

/-- `stopScanTimer()` (lines 255-260): clears the interval if it is set. -/
def stopScanTimer (s : SessionState) : SessionState :=
  if s.scanTimer then { s with scanTimer := false } else s

/-- `showScanResult(aadhaarNumber, rawData)` (lines 182-191): shows the
result panel, stores the scanned values in the `window` globals and reports
success. -/
def showScanResult (aadhaarNumber rawData : List Char) (s : SessionState) :
    SessionState :=
  updateStatus ("QR Code found!".toList) .success
    { s with scanResultVisible := true,
             scannedAadhaar := some aadhaarNumber,
             scannedQRData := some rawData }

/-- `stopCamera()` (lines 118-129): when a scanner handle exists and we are
scanning, `await html5QrCode.stop()`; on success clear the scanning flag,
stop the timer and report; a throw is only logged (`console.error`), leaving
the state unchanged. -/
def stopCamera (stopOk : Bool) (s : SessionState) : SessionState :=
  if s.html5QrCode && s.scanning then
    if stopOk then
      updateStatus ("Camera stopped".toList) .info
        (stopScanTimer { s with scanning := false })
    else s
  else s

/-- `startCamera(cameraId)` (lines 73-102): no-op on an empty (falsy) id;
otherwise report loading and call `html5QrCode.start`.  The call succeeds
only when the handle exists and the device starts (`startOk`); then the
scanning flag is set, the timer started and `Scanning...` reported.  A
throw lands in the catch: `showError('Camera Start Failed', ...)`. -/
def startCamera (startOk : Bool) (cameraId : List Char) (s : SessionState) :
    SessionState :=
  if cameraId.isEmpty then s
  else
    let s1 := updateStatus ("Starting camera...".toList) .loading s
    if s.html5QrCode && startOk then
      updateStatus ("Scanning...".toList) .scanning
        (startScanTimer { s1 with scanning := true })
    else
      showError ("Camera Start Failed".toList) ("start failed".toList) s1

/-- `switchCamera(newCameraId)` (lines 105-115): returns immediately unless
the id is truthy and we are scanning; otherwise stop, record the new id,
start against the new device. -/
def switchCamera (stopOk startOk : Bool) (newCameraId : List Char)
    (s : SessionState) : SessionState :=
  if newCameraId.isEmpty || !s.scanning then s
  else
    let s1 := stopCamera stopOk s
    let s2 := { s1 with cameraId := newCameraId }
    startCamera startOk newCameraId s2

/-- `onScanSuccess(decodedText)` (lines 132-149): extract; on success stop
the camera and timer and show the result; on failure show the
`Invalid QR Code` error (the source also schedules `scanResumeTimeout`
2000 ms later, modelled separately). -/
def onScanSuccess (stopOk : Bool) (decodedText : List Char) (s : SessionState) :
    SessionState :=
  match extractAadhaarNumber decodedText with
  | some aadhaarNumber =>
    showScanResult aadhaarNumber decodedText
      (stopScanTimer (stopCamera stopOk s))
  | none =>
    showError ("Invalid QR Code".toList)
      ("This QR code does not contain a valid Aadhaar number.".toList) s

/-- The `setTimeout` callback scheduled by the invalid branch of
`onScanSuccess` (lines 145-147): restore the `Scanning...` status line. -/
def scanResumeTimeout (s : SessionState) : SessionState :=
  updateStatus ("Scanning...".toList) .scanning s

/-- `String.prototype.includes(needle)`: does `needle` occur as a
contiguous substring? -/
def includesSub (needle : List Char) : List Char → Bool
  | [] => needle.isEmpty
  | c :: cs => needle.isPrefixOf (c :: cs) || includesSub needle cs

/-- `onScanError(errorMessage)` (lines 152-160): ignored unless scanning;
a per-frame miss (`NotFoundException` / `NotReadableError` in the message)
only rewrites the status line; anything else does nothing at all. -/
def onScanError (errorMessage : List Char) (s : SessionState) : SessionState :=
  if !s.scanning then s
  else
    if includesSub ("NotFoundException".toList) errorMessage
        || includesSub ("NotReadableError".toList) errorMessage then
      updateStatus ("No QR code detected".toList) .warning s
    else s

/-- `cleanup()` (lines 263-269): stop the camera and timer, drop the
library handle and stream, clear the scanning flag. -/
def cleanup (stopOk : Bool) (s : SessionState) : SessionState :=
  let s1 := stopScanTimer (stopCamera stopOk s)
  { s1 with html5QrCode := false, cameraStream := false, scanning := false }

/-- `closeQRScanner()` (lines 292-307): if a scanner instance exists,
`cleanup()` and null it out; then hide the modal, result and error panels
and reset the status line to `Ready to scan`. -/
def closeQRScanner (stopOk : Bool) (s : SessionState) : SessionState :=
  let s1 :=
    if s.scannerAlive then { cleanup stopOk s with scannerAlive := false }
    else s
  { s1 with qrModalVisible := false,
            scanResultVisible := false,
            errorVisible := false,
            statusMessage := "Ready to scan".toList,
            statusType := .info }

/-- Number of digit characters in a string, i.e. the length after the
source's `replace(/\D/g, '')` stripping. -/
def dcount (l : List Char) : Nat := (l.filter isDigitCh).length

/-- Shape of what `\s?` can consume: nothing, or one whitespace character. -/
def wsOpt (o : List Char) : Prop := o = [] ∨ ∃ w, o = [w] ∧ isWs w = true

/-- A live scanning session, used as a concrete state in witnesses. -/
def scanningState : SessionState :=
  { scannerAlive := true, html5QrCode := true, cameraStream := true,
    scanTimer := true, scanning := true, cameraId := "cam1".toList,
    qrModalVisible := true, scanResultVisible := false, errorVisible := false,
    errorTitle := [], errorMessage := [],
    statusMessage := "Scanning...".toList, statusType := .scanning,
    scannedAadhaar := none, scannedQRData := none }

/-- The same session after its camera has been stopped (e.g. after a switch
or close was initiated): the scanning flag is down but the object is still
reachable by late decode callbacks. -/
def stoppedState : SessionState :=
  { scanningState with scanning := false, scanTimer := false,
                       statusMessage := "Camera stopped".toList,
                       statusType := .info }

/-! ### Character class lemmas -/

theorem isDigitCh_iff {c : Char} :
    isDigitCh c = true ↔ 48 ≤ c.toNat ∧ c.toNat ≤ 57 := by
  simp [isDigitCh]

theorem isWs_iff {c : Char} :
    isWs c = true ↔ c.toNat = 32 ∨ c.toNat = 9 ∨ c.toNat = 10 ∨
      c.toNat = 11 ∨ c.toNat = 12 ∨ c.toNat = 13 := by
  simp [isWs, or_assoc]

theorem digit_not_ws {c : Char} (h : isDigitCh c = true) : isWs c = false := by
  rw [isDigitCh_iff] at h
  rw [Bool.eq_false_iff]
  intro hw
  rw [isWs_iff] at hw
  omega

theorem ws_not_digit {c : Char} (h : isWs c = true) : isDigitCh c = false := by
  rw [isWs_iff] at h
  rw [Bool.eq_false_iff]
  intro hd
  rw [isDigitCh_iff] at hd
  omega

theorem digit_or_ws_low {c : Char}
    (h : isDigitCh c = true ∨ isWs c = true) : c.toNat < 65 := by
  rcases h with h | h
  · rw [isDigitCh_iff] at h; omega
  · rw [isWs_iff] at h; omega

theorem foldCase_eq_self {c : Char} (h : c.toNat < 65) : foldCase c = c := by
  unfold foldCase
  rw [if_neg]
  simp only [Bool.and_eq_true, decide_eq_true_eq, not_and]
  omega

theorem foldCase_ne_of_low {c t : Char} (hc : c.toNat < 65)
    (ht : 96 ≤ t.toNat) : foldCase c ≠ t := by
  rw [foldCase_eq_self hc]
  intro h
  subst h
  omega

/-! ### Matcher lemmas -/

theorem matchDigits_sound : ∀ {n : Nat} {l d r : List Char},
    matchDigits n l = some (d, r) →
    l = d ++ r ∧ d.length = n ∧ d.all isDigitCh = true := by
  intro n
  induction n with
  | zero =>
    intro l d r h
    simp only [matchDigits, Option.some.injEq, Prod.mk.injEq] at h
    obtain ⟨rfl, rfl⟩ := h
    simp
  | succ n ih =>
    intro l d r h
    cases l with
    | nil => simp [matchDigits] at h
    | cons c cs =>
      simp only [matchDigits] at h
      by_cases hdig : isDigitCh c = true
      · rw [if_pos hdig] at h
        cases hmd : matchDigits n cs with
        | none => rw [hmd] at h; exact absurd h (by simp)
        | some p =>
          obtain ⟨d', r'⟩ := p
          rw [hmd] at h
          simp only [Option.some.injEq, Prod.mk.injEq] at h
          obtain ⟨rfl, rfl⟩ := h
          obtain ⟨hl, hlen, hall⟩ := ih hmd
          refine ⟨by rw [hl]; rfl, by simp [hlen], ?_⟩
          simp [List.all_cons, hdig, hall]
      · rw [if_neg hdig] at h
        exact absurd h (by simp)

theorem matchDigits_complete : ∀ {d : List Char} {n : Nat} (r : List Char),
    d.length = n → d.all isDigitCh = true →
    matchDigits n (d ++ r) = some (d, r) := by
  intro d
  induction d with
  | nil =>
    intro n r hl _
    subst hl
    simp [matchDigits]
  | cons c d' ih =>
    intro n r hl ha
    subst hl
    simp only [List.all_cons, Bool.and_eq_true] at ha
    simp [matchDigits, ha.1, ih r rfl ha.2]

theorem stripLabelCI_sound : ∀ {pat l r : List Char},
    stripLabelCI pat l = some r →
    ∃ pre, l = pre ++ r ∧ pre.length = pat.length := by
  intro pat
  induction pat with
  | nil =>
    intro l r h
    simp only [stripLabelCI, Option.some.injEq] at h
    exact ⟨[], by simp [h], by simp⟩
  | cons p ps ih =>
    intro l r h
    cases l with
    | nil => simp [stripLabelCI] at h
    | cons c cs =>
      simp only [stripLabelCI] at h
      split at h
      · obtain ⟨pre, hpre, hlen⟩ := ih h
        exact ⟨c :: pre, by simp [hpre], by simp [hlen]⟩
      · exact absurd h (by simp)

theorem stripLabelCI_complete : ∀ {A pat : List Char} (rest : List Char),
    A.map foldCase = pat.map foldCase →
    stripLabelCI pat (A ++ rest) = some rest := by
  intro A
  induction A with
  | nil =>
    intro pat rest h
    have hpat : pat = [] := by
      cases pat with
      | nil => rfl
      | cons _ _ => simp at h
    subst hpat
    simp [stripLabelCI]
  | cons a A' ih =>
    intro pat rest h
    cases pat with
    | nil => simp at h
    | cons p ps =>
      simp only [List.map_cons, List.cons.injEq] at h
      simp [stripLabelCI, h.1, ih rest h.2]

theorem findFirst_sound {m : List Char → Option (List Char × List Char)} :
    ∀ {l : List Char} {res}, findFirst m l = some res →
    ∃ t, t <:+ l ∧ m t = some res := by
  intro l
  induction l with
  | nil =>
    intro res h
    exact ⟨[], List.nil_suffix, h⟩
  | cons c cs ih =>
    intro res h
    simp only [findFirst] at h
    split at h
    · rename_i hm
      simp only [Option.some.injEq] at h
      exact ⟨c :: cs, List.suffix_refl _, by rw [hm, h]⟩
    · obtain ⟨t, hsuf, hm⟩ := ih h
      exact ⟨t, hsuf.trans (List.suffix_cons c cs), hm⟩

theorem findFirst_head {m : List Char → Option (List Char × List Char)}
    {l : List Char} {res} (h : m l = some res) : findFirst m l = some res := by
  cases l with
  | nil => exact h
  | cons c cs => simp [findFirst, h]

theorem findFirst_cons_none {m : List Char → Option (List Char × List Char)}
    {c : Char} {cs : List Char} (h : m (c :: cs) = none) :
    findFirst m (c :: cs) = findFirst m cs := by
  simp [findFirst, h]

theorem labelAt_cons_ne {p : Char} {ps : List Char} {c : Char} {cs : List Char}
    (hne : foldCase c ≠ foldCase p) : labelAt (p :: ps) (c :: cs) = none := by
  simp [labelAt, stripLabelCI, hne]

theorem findFirst_label_none {p : Char} {ps l : List Char}
    (h : ∀ c ∈ l, foldCase c ≠ foldCase p) :
    findFirst (labelAt (p :: ps)) l = none := by
  induction l with
  | nil => simp [findFirst, labelAt, stripLabelCI]
  | cons c cs ih =>
    rw [findFirst_cons_none (labelAt_cons_ne (h c (by simp)))]
    exact ih (fun x hx => h x (by simp [hx]))

theorem findFirst_label_skip {p : Char} {ps u : List Char} (x : List Char)
    (h : ∀ c ∈ u, foldCase c ≠ foldCase p) :
    findFirst (labelAt (p :: ps)) (u ++ x) = findFirst (labelAt (p :: ps)) x := by
  induction u with
  | nil => simp
  | cons c u' ih =>
    rw [List.cons_append,
      findFirst_cons_none (labelAt_cons_ne (h c (by simp)))]
    exact ih (fun y hy => h y (by simp [hy]))

theorem optWsDigits_sound {n : Nat} {l g r : List Char}
    (h : optWsDigits n l = some (g, r)) :
    ∃ o d, l = o ++ (d ++ r) ∧ g = o ++ d ∧ wsOpt o ∧
      d.length = n ∧ d.all isDigitCh = true := by
  cases l with
  | nil =>
    obtain ⟨hl, hlen, hall⟩ := matchDigits_sound h
    exact ⟨[], g, by simpa using hl, by simp, Or.inl rfl, hlen, hall⟩
  | cons c cs =>
    simp only [optWsDigits] at h
    by_cases hws : isWs c = true
    · rw [if_pos hws] at h
      cases hmd : matchDigits n cs with
      | some p =>
        obtain ⟨d, r'⟩ := p
        rw [hmd] at h
        simp only [Option.some.injEq, Prod.mk.injEq] at h
        obtain ⟨rfl, rfl⟩ := h
        obtain ⟨hl, hlen, hall⟩ := matchDigits_sound hmd
        exact ⟨[c], d, by simp [hl], by simp, Or.inr ⟨c, rfl, hws⟩, hlen, hall⟩
      | none =>
        rw [hmd] at h
        obtain ⟨hl, hlen, hall⟩ := matchDigits_sound h
        exact ⟨[], g, by simpa using hl, by simp, Or.inl rfl, hlen, hall⟩
    · rw [if_neg hws] at h
      obtain ⟨hl, hlen, hall⟩ := matchDigits_sound h
      exact ⟨[], g, by simpa using hl, by simp, Or.inl rfl, hlen, hall⟩

theorem optWsDigits_ws {n : Nat} {w : Char} {d : List Char} (r : List Char)
    (hw : isWs w = true) (hlen : d.length = n) (hall : d.all isDigitCh = true) :
    optWsDigits n (w :: (d ++ r)) = some (w :: d, r) := by
  simp [optWsDigits, hw, matchDigits_complete r hlen hall]

theorem optWsDigits_digits {n : Nat} {d : List Char} (r : List Char)
    (hne : d ≠ []) (hlen : d.length = n) (hall : d.all isDigitCh = true) :
    optWsDigits n (d ++ r) = some (d, r) := by
  cases d with
  | nil => exact absurd rfl hne
  | cons c d' =>
    have hc : isDigitCh c = true := by
      simp only [List.all_cons, Bool.and_eq_true] at hall
      exact hall.1
    have hmc := matchDigits_complete r hlen hall
    rw [List.cons_append] at hmc
    simp [optWsDigits, digit_not_ws hc, hmc]

theorem p3At_sound {t m0 m1 : List Char} (h : p3At t = some (m0, m1)) :
    ∃ a g1 g2 rest, t = a ++ (g1 ++ (g2 ++ rest)) ∧ m1 = a ++ (g1 ++ g2) ∧
      a.length = 4 ∧ a.all isDigitCh = true ∧
      (∃ o b, g1 = o ++ b ∧ wsOpt o ∧ b.length = 4 ∧ b.all isDigitCh = true) ∧
      (∃ o c, g2 = o ++ c ∧ wsOpt o ∧ c.length = 4 ∧ c.all isDigitCh = true) := by
  unfold p3At at h
  cases hma : matchDigits 4 t with
  | none => simp only [hma] at h; exact Option.noConfusion h
  | some pa =>
    obtain ⟨a, r1⟩ := pa
    simp only [hma] at h
    cases hg1 : optWsDigits 4 r1 with
    | none => simp only [hg1] at h; exact Option.noConfusion h
    | some pg1 =>
      obtain ⟨g1, r2⟩ := pg1
      simp only [hg1] at h
      cases hg2 : optWsDigits 4 r2 with
      | none => simp only [hg2] at h; exact Option.noConfusion h
      | some pg2 =>
        obtain ⟨g2, r3⟩ := pg2
        simp only [hg2, Option.some.injEq, Prod.mk.injEq] at h
        obtain ⟨_, rfl⟩ := h
        obtain ⟨hta, halen, haall⟩ := matchDigits_sound hma
        obtain ⟨o1, b, hr1, hg1eq, ho1, hblen, hball⟩ := optWsDigits_sound hg1
        obtain ⟨o2, c, hr2, hg2eq, ho2, hclen, hcall⟩ := optWsDigits_sound hg2
        refine ⟨a, g1, g2, r3, ?_, by rw [List.append_assoc], halen, haall,
          ⟨o1, b, hg1eq, ho1, hblen, hball⟩, ⟨o2, c, hg2eq, ho2, hclen, hcall⟩⟩
        rw [hta, hr1, hr2, hg1eq, hg2eq]
        simp [List.append_assoc]

theorem labelAt_sound {pat t m0 m1 : List Char}
    (h : labelAt pat t = some (m0, m1)) :
    ∃ pre r2, t = pre ++ (m1 ++ r2) ∧ pre.length = pat.length ∧
      m1.length = 12 ∧ m1.all isDigitCh = true := by
  unfold labelAt at h
  cases hstrip : stripLabelCI pat t with
  | none => simp only [hstrip] at h; exact Option.noConfusion h
  | some r =>
    simp only [hstrip] at h
    cases hmd : matchDigits 12 r with
    | none => simp only [hmd] at h; exact Option.noConfusion h
    | some p =>
      obtain ⟨d, r2⟩ := p
      simp only [hmd, Option.some.injEq, Prod.mk.injEq] at h
      obtain ⟨_, rfl⟩ := h
      obtain ⟨pre, hpre, hplen⟩ := stripLabelCI_sound hstrip
      obtain ⟨hr, hdlen, hdall⟩ := matchDigits_sound hmd
      exact ⟨pre, r2, by rw [hpre, hr], hplen, hdlen, hdall⟩

theorem p4Whole_sound {t m0 m1 : List Char} (h : p4Whole t = some (m0, m1)) :
    t = m1 ∧ m1.length = 12 ∧ m1.all isDigitCh = true := by
  unfold p4Whole at h
  cases hmd : matchDigits 12 t with
  | none => simp only [hmd] at h; exact Option.noConfusion h
  | some p =>
    obtain ⟨d, r⟩ := p
    simp only [hmd] at h
    by_cases hr : r.isEmpty = true
    · rw [if_pos hr] at h
      simp only [Option.some.injEq, Prod.mk.injEq] at h
      obtain ⟨_, rfl⟩ := h
      obtain ⟨ht, hlen, hall⟩ := matchDigits_sound hmd
      rw [List.isEmpty_iff] at hr
      subst hr
      exact ⟨by simpa using ht, hlen, hall⟩
    · rw [if_neg hr] at h
      exact Option.noConfusion h

/-! ### Validation loop lemmas -/

theorem tryPattern_some_pair {m0 m1 r : List Char}
    (h : tryPattern (some (m0, m1)) = some r) :
    r.length = 12 ∧ r.all isDigitCh = true := by
  simp only [tryPattern] at h
  by_cases him : m1.isEmpty = true
  · rw [if_pos him] at h
    split at h
    · rename_i hcond
      simp only [Bool.and_eq_true, decide_eq_true_eq] at hcond
      simp only [Option.some.injEq] at h
      subst h
      exact ⟨hcond.1, hcond.2.2⟩
    · exact Option.noConfusion h
  · rw [if_neg him] at h
    split at h
    · rename_i hcond
      simp only [Bool.and_eq_true, decide_eq_true_eq] at hcond
      simp only [Option.some.injEq] at h
      subst h
      exact ⟨hcond.1, hcond.2.2⟩
    · exact Option.noConfusion h

theorem tryPattern_valid {mr : Option (List Char × List Char)} {r : List Char}
    (h : tryPattern mr = some r) :
    r.length = 12 ∧ r.all isDigitCh = true ∧
      ∃ m0 m1, mr = some (m0, m1) := by
  cases mr with
  | none => exact absurd h (by simp [tryPattern])
  | some p =>
    obtain ⟨m0, m1⟩ := p
    obtain ⟨h1, h2⟩ := tryPattern_some_pair h
    exact ⟨h1, h2, m0, m1, rfl⟩

theorem tryPattern_digits {m0 m1 : List Char} (hlen : m1.length = 12)
    (hall : m1.all isDigitCh = true) : tryPattern (some (m0, m1)) = some m1 := by
  have hne : m1.isEmpty = false := by
    cases m1 with
    | nil => simp at hlen
    | cons _ _ => rfl
  have hfilter : m1.filter isDigitCh = m1 :=
    List.filter_eq_self.mpr (List.all_eq_true.mp hall)
  simp [tryPattern, hne, hfilter, hlen, hall]

theorem extract_cases {s r : List Char} (h : extractAadhaarNumber s = some r) :
    tryPattern (findFirst p1At s) = some r ∨
    tryPattern (findFirst p2At s) = some r ∨
    tryPattern (findFirst p3At s) = some r ∨
    tryPattern (p4Whole s) = some r := by
  unfold extractAadhaarNumber at h
  cases h1 : tryPattern (findFirst p1At s) with
  | some a => rw [h1] at h; simp only [Option.some.injEq] at h; subst h; exact Or.inl rfl
  | none =>
    rw [h1] at h
    cases h2 : tryPattern (findFirst p2At s) with
    | some a =>
      rw [h2] at h; simp only [Option.some.injEq] at h; subst h
      exact Or.inr (Or.inl rfl)
    | none =>
      rw [h2] at h
      cases h3 : tryPattern (findFirst p3At s) with
      | some a =>
        rw [h3] at h; simp only [Option.some.injEq] at h; subst h
        exact Or.inr (Or.inr (Or.inl rfl))
      | none =>
        rw [h3] at h
        exact Or.inr (Or.inr (Or.inr h))

theorem extract_of_p1 {s r : List Char}
    (h : tryPattern (findFirst p1At s) = some r) :
    extractAadhaarNumber s = some r := by
  unfold extractAadhaarNumber
  rw [h]

theorem extract_of_p2 {s r : List Char}
    (h1 : tryPattern (findFirst p1At s) = none)
    (h : tryPattern (findFirst p2At s) = some r) :
    extractAadhaarNumber s = some r := by
  unfold extractAadhaarNumber
  rw [h1, h]

theorem extract_of_p3 {s r : List Char}
    (h1 : tryPattern (findFirst p1At s) = none)
    (h2 : tryPattern (findFirst p2At s) = none)
    (h : tryPattern (findFirst p3At s) = some r) :
    extractAadhaarNumber s = some r := by
  unfold extractAadhaarNumber
  rw [h1, h2, h]

theorem extract_none_of_all {s : List Char}
    (h1 : tryPattern (findFirst p1At s) = none)
    (h2 : tryPattern (findFirst p2At s) = none)
    (h3 : tryPattern (findFirst p3At s) = none)
    (h4 : tryPattern (p4Whole s) = none) :
    extractAadhaarNumber s = none := by
  unfold extractAadhaarNumber
  rw [h1, h2, h3, h4]

/-! ### Digit counting -/

theorem dcount_append (a b : List Char) :
    dcount (a ++ b) = dcount a + dcount b := by
  simp [dcount, List.filter_append]

theorem dcount_all_digits {d : List Char} (h : d.all isDigitCh = true) :
    dcount d = d.length := by
  simp [dcount, List.filter_eq_self.mpr (List.all_eq_true.mp h)]

theorem dcount_all_ws {w : List Char} (h : w.all isWs = true) : dcount w = 0 := by
  simp only [dcount, List.length_eq_zero, List.filter_eq_nil_iff]
  intro c hc
  rw [ws_not_digit (List.all_eq_true.mp h c hc)]
  simp

theorem dcount_wsOpt {o : List Char} (h : wsOpt o) : dcount o = 0 := by
  rcases h with rfl | ⟨w, rfl, hw⟩
  · rfl
  · exact dcount_all_ws (by simp [hw])

theorem dcount_suffix_le {t s : List Char} (h : t <:+ s) : dcount t ≤ dcount s :=
  List.Sublist.length_le (List.Sublist.filter _ h.sublist)

/-! ### Strings made of digits and whitespace match no label pattern -/

theorem no_label_match_of_plain {l : List Char}
    (h : ∀ c ∈ l, isDigitCh c = true ∨ isWs c = true) :
    tryPattern (findFirst p1At l) = none ∧
    tryPattern (findFirst p2At l) = none := by
  have hA : foldCase 'A' = 'a' := by decide
  have hU : foldCase 'U' = 'u' := by decide
  have h1 : findFirst p1At l = none := by
    have hcons : ("AADHAAR:".toList) = 'A' :: "ADHAAR:".toList := rfl
    unfold p1At
    rw [hcons]
    exact findFirst_label_none (fun c hc => by
      rw [hA]
      exact foldCase_ne_of_low (digit_or_ws_low (h c hc)) (by decide))
  have h2 : findFirst p2At l = none := by
    have hcons : ("UID:".toList) = 'U' :: "ID:".toList := rfl
    unfold p2At
    rw [hcons]
    exact findFirst_label_none (fun c hc => by
      rw [hU]
      exact foldCase_ne_of_low (digit_or_ws_low (h c hc)) (by decide))
  exact ⟨by rw [h1]; rfl, by rw [h2]; rfl⟩

/-! ### Any successful extraction needs at least 12 digits in the input -/

theorem extract_some_twelve_digits {s r : List Char}
    (h : extractAadhaarNumber s = some r) : 12 ≤ dcount s := by
  rcases extract_cases h with h | h | h | h
  · obtain ⟨_, _, m0, m1, hm⟩ := tryPattern_valid h
    obtain ⟨t, hsuf, hat⟩ := findFirst_sound hm
    unfold p1At at hat
    obtain ⟨pre, r2, ht, _, hlen, hall⟩ := labelAt_sound hat
    have h12 : 12 ≤ dcount t := by
      rw [ht, dcount_append, dcount_append, dcount_all_digits hall, hlen]
      omega
    exact le_trans h12 (dcount_suffix_le hsuf)
  · obtain ⟨_, _, m0, m1, hm⟩ := tryPattern_valid h
    obtain ⟨t, hsuf, hat⟩ := findFirst_sound hm
    unfold p2At at hat
    obtain ⟨pre, r2, ht, _, hlen, hall⟩ := labelAt_sound hat
    have h12 : 12 ≤ dcount t := by
      rw [ht, dcount_append, dcount_append, dcount_all_digits hall, hlen]
      omega
    exact le_trans h12 (dcount_suffix_le hsuf)
  · obtain ⟨_, _, m0, m1, hm⟩ := tryPattern_valid h
    obtain ⟨t, hsuf, hat⟩ := findFirst_sound hm
    obtain ⟨a, g1, g2, rest, ht, _, halen, haall,
      ⟨o1, b, hg1, ho1, hblen, hball⟩, ⟨o2, c, hg2, ho2, hclen, hcall⟩⟩ :=
      p3At_sound hat
    have h12 : 12 ≤ dcount t := by
      rw [ht, hg1, hg2, dcount_append, dcount_append, dcount_append,
        dcount_append, dcount_append, dcount_all_digits haall,
        dcount_all_digits hball, dcount_all_digits hcall, dcount_wsOpt ho1,
        dcount_wsOpt ho2, halen, hblen, hclen]
      omega
    exact le_trans h12 (dcount_suffix_le hsuf)
  · obtain ⟨_, _, m0, m1, hm⟩ := tryPattern_valid h
    obtain ⟨ht, hlen, hall⟩ := p4Whole_sound hm
    rw [ht, dcount_all_digits hall, hlen]

/-- C1 counterexample: the claim says no input with more than 12 digits (in
particular none containing a run of more than 12 consecutive digits) yields
a result, but the unanchored grouped pattern `(\d{4}\s?\d{4}\s?\d{4})`
matches the first 12 digits of a 13-digit run, so `extractAadhaarNumber`
returns them. -/
theorem extract_thirteen_digit_run_counterexample :
    12 < dcount ("1234567890123".toList) ∧
    extractAadhaarNumber ("1234567890123".toList)
      = some ("123456789012".toList) :=
  ⟨by decide, by decide⟩

/-- C1 (amended): for every input whose digits, after stripping all
non-digit characters, number fewer than 12, `extractAadhaarNumber` returns
nothing (so `extract("12345")` is `None`); inputs with more than 12 digits
can still produce a result. -/
theorem extract_none_of_fewer_digits (s : List Char) (h : dcount s < 12) :
    extractAadhaarNumber s = none := by
  cases he : extractAadhaarNumber s with
  | none => rfl
  | some r => exact absurd (extract_some_twelve_digits he) (by omega)

/-- Witness for C1 (amended) at the spec's own example `"12345"`. -/
theorem extract_none_of_fewer_digits_witness :
    dcount ("12345".toList) < 12 ∧
    extractAadhaarNumber ("12345".toList) = none :=
  ⟨by decide, extract_none_of_fewer_digits _ (by decide)⟩

/-- C4: every non-null result of `extractAadhaarNumber` satisfies the
`IdentityNumber` invariant: length 12 and all characters decimal digits. -/
theorem extract_result_invariant (s r : List Char)
    (h : extractAadhaarNumber s = some r) :
    r.length = 12 ∧ r.all isDigitCh = true := by
  rcases extract_cases h with h | h | h | h <;>
    exact ⟨(tryPattern_valid h).1, (tryPattern_valid h).2.1⟩

/-- Witness for C4 at a concrete grouped input. -/
theorem extract_result_invariant_witness :
    extractAadhaarNumber ("1234 5678 9012".toList)
      = some ("123456789012".toList) ∧
    ("123456789012".toList).length = 12 ∧
    ("123456789012".toList).all isDigitCh = true :=
  ⟨by decide, extract_result_invariant ("1234 5678 9012".toList)
    ("123456789012".toList) (by decide)⟩

/-! ### Completeness helpers for the positive claims -/

theorem tryPattern_of_filter {m0 m1 r : List Char} (hne : m1.isEmpty = false)
    (hfil : m1.filter isDigitCh = r) (hlen : r.length = 12)
    (hall : r.all isDigitCh = true) :
    tryPattern (some (m0, m1)) = some r := by
  have hrne : r.isEmpty = false := by
    cases r with
    | nil => simp at hlen
    | cons _ _ => rfl
  simp [tryPattern, hne, hfil, hlen, hall, hrne]

/-- C2: a payload carrying a case-insensitive `AADHAAR:` label immediately
followed by 12 digits yields exactly those digits, for an arbitrary suffix
`v` (which may itself contain other 12-digit substrings) and any prefix `u`
free of `a`/`A` (so the shown label is the first label occurrence); the
same holds for `UID:` labels provided no `AADHAAR:` pattern matches earlier
(pattern 1 is tried before pattern 2); and a bare 12-digit run occurring
before the label does not win: the labeled patterns are tried before the
grouped and bare fallbacks. -/
theorem labeled_payload_extraction :
    (∀ u A d v : List Char,
      (∀ c ∈ u, foldCase c ≠ 'a') →
      A.map foldCase = "aadhaar:".toList →
      d.length = 12 → d.all isDigitCh = true →
      extractAadhaarNumber (u ++ (A ++ (d ++ v))) = some d) ∧
    (∀ u A d v : List Char,
      (∀ c ∈ u, foldCase c ≠ 'a' ∧ foldCase c ≠ 'u') →
      (∀ c ∈ v, foldCase c ≠ 'a') →
      A.map foldCase = "uid:".toList →
      d.length = 12 → d.all isDigitCh = true →
      extractAadhaarNumber (u ++ (A ++ (d ++ v))) = some d) ∧
    extractAadhaarNumber ("999988887777 AADHAAR:123456789012".toList)
      = some ("123456789012".toList) := by
  refine ⟨?_, ?_, by decide⟩
  · intro u A d v hu hA hlen hall
    have hAfold : A.map foldCase = ("AADHAAR:".toList).map foldCase := by
      rw [hA]; decide
    have hlab : labelAt ("AADHAAR:".toList) (A ++ (d ++ v))
        = some ((A ++ (d ++ v)).take (("AADHAAR:".toList).length) ++ d, d) := by
      simp only [labelAt, stripLabelCI_complete (d ++ v) hAfold,
        matchDigits_complete v hlen hall]
    have hff : findFirst p1At (u ++ (A ++ (d ++ v)))
        = some ((A ++ (d ++ v)).take (("AADHAAR:".toList).length) ++ d, d) := by
      unfold p1At
      rw [show ("AADHAAR:".toList) = 'A' :: "ADHAAR:".toList from rfl]
      rw [findFirst_label_skip (A ++ (d ++ v)) (fun c hc => by
        rw [show foldCase 'A' = 'a' from by decide]
        exact hu c hc)]
      exact findFirst_head hlab
    apply extract_of_p1
    rw [hff, tryPattern_digits hlen hall]
  · intro u A d v hu hv hA hlen hall
    have hAfold : A.map foldCase = ("UID:".toList).map foldCase := by
      rw [hA]; decide
    have hp1 : findFirst p1At (u ++ (A ++ (d ++ v))) = none := by
      unfold p1At
      rw [show ("AADHAAR:".toList) = 'A' :: "ADHAAR:".toList from rfl]
      apply findFirst_label_none
      intro c hc
      rw [show foldCase 'A' = 'a' from by decide]
      rcases List.mem_append.mp hc with hcu | hc2
      · exact (hu c hcu).1
      · rcases List.mem_append.mp hc2 with hcA | hc3
        · have hm : foldCase c ∈ A.map foldCase := List.mem_map_of_mem _ hcA
          rw [hA] at hm
          simp only [String.toList, List.mem_cons, List.not_mem_nil, or_false] at hm
          rcases hm with h | h | h | h <;> rw [h] <;> decide
        · rcases List.mem_append.mp hc3 with hcd | hcv
          · exact foldCase_ne_of_low
              (digit_or_ws_low (Or.inl (List.all_eq_true.mp hall c hcd)))
              (by decide)
          · exact hv c hcv
    have hp1try : tryPattern (findFirst p1At (u ++ (A ++ (d ++ v)))) = none := by
      rw [hp1]; rfl
    have hlab : labelAt ("UID:".toList) (A ++ (d ++ v))
        = some ((A ++ (d ++ v)).take (("UID:".toList).length) ++ d, d) := by
      simp only [labelAt, stripLabelCI_complete (d ++ v) hAfold,
        matchDigits_complete v hlen hall]
    have hff : findFirst p2At (u ++ (A ++ (d ++ v)))
        = some ((A ++ (d ++ v)).take (("UID:".toList).length) ++ d, d) := by
      unfold p2At
      rw [show ("UID:".toList) = 'U' :: "ID:".toList from rfl]
      rw [findFirst_label_skip (A ++ (d ++ v)) (fun c hc => by
        rw [show foldCase 'U' = 'u' from by decide]
        exact (hu c hc).2)]
      exact findFirst_head hlab
    apply extract_of_p2 hp1try
    rw [hff, tryPattern_digits hlen hall]

/-- Witness for C2 at the spec's examples: the labeled medical payload
(label at the start, metadata after), a lowercase `uid:` payload, and the
built-in ordering example. -/
theorem labeled_payload_extraction_witness :
    extractAadhaarNumber (([] : List Char) ++ ("AADHAAR:".toList ++
      ("123456789012".toList ++ "|TYPE:MEDICAL|HOSPITAL:APOLLO".toList)))
      = some ("123456789012".toList) ∧
    extractAadhaarNumber (([] : List Char) ++ ("uid:".toList ++
      ("987654321098".toList ++ ([] : List Char))))
      = some ("987654321098".toList) := by
  constructor
  · exact labeled_payload_extraction.1 [] ("AADHAAR:".toList)
      ("123456789012".toList) ("|TYPE:MEDICAL|HOSPITAL:APOLLO".toList)
      (by intro c hc; exact absurd hc (List.not_mem_nil c))
      (by decide) (by decide) (by decide)
  · exact labeled_payload_extraction.2.1 [] ("uid:".toList)
      ("987654321098".toList) []
      (by intro c hc; exact absurd hc (List.not_mem_nil c))
      (by intro c hc; exact absurd hc (List.not_mem_nil c))
      (by decide) (by decide) (by decide)

/-- C3: three 4-digit groups, single-space-separated or concatenated, are
extracted as their 12-digit concatenation; in particular a bare 12-digit
string (split as any three 4-digit blocks) is returned unchanged. -/
theorem grouped_extraction (d1 d2 d3 : List Char)
    (h1l : d1.length = 4) (h1a : d1.all isDigitCh = true)
    (h2l : d2.length = 4) (h2a : d2.all isDigitCh = true)
    (h3l : d3.length = 4) (h3a : d3.all isDigitCh = true) :
    extractAadhaarNumber (d1 ++ (' ' :: (d2 ++ (' ' :: d3))))
      = some (d1 ++ (d2 ++ d3)) ∧
    extractAadhaarNumber (d1 ++ (d2 ++ d3)) = some (d1 ++ (d2 ++ d3)) := by
  have hsp : isWs ' ' = true := by decide
  have hspd : isDigitCh ' ' = false := by decide
  have h2ne : d2 ≠ [] := by intro h; rw [h] at h2l; simp at h2l
  have h3ne : d3 ≠ [] := by intro h; rw [h] at h3l; simp at h3l
  have hcatlen : (d1 ++ (d2 ++ d3)).length = 12 := by
    simp [h1l, h2l, h3l]
  have hcatall : (d1 ++ (d2 ++ d3)).all isDigitCh = true := by
    simp [List.all_append, h1a, h2a, h3a]
  have hf1 : d1.filter isDigitCh = d1 :=
    List.filter_eq_self.mpr (List.all_eq_true.mp h1a)
  have hf2 : d2.filter isDigitCh = d2 :=
    List.filter_eq_self.mpr (List.all_eq_true.mp h2a)
  have hf3 : d3.filter isDigitCh = d3 :=
    List.filter_eq_self.mpr (List.all_eq_true.mp h3a)
  have hd1ne : ∀ X : List Char, (d1 ++ X).isEmpty = false := by
    intro X
    cases d1 with
    | nil => simp at h1l
    | cons _ _ => rfl
  constructor
  · -- single spaces between the groups
    have hplain : ∀ c ∈ d1 ++ (' ' :: (d2 ++ (' ' :: d3))),
        isDigitCh c = true ∨ isWs c = true := by
      intro c hc
      rcases List.mem_append.mp hc with hc1 | hc2
      · exact Or.inl (List.all_eq_true.mp h1a c hc1)
      · rcases List.mem_cons.mp hc2 with rfl | hc3
        · exact Or.inr hsp
        · rcases List.mem_append.mp hc3 with hc4 | hc5
          · exact Or.inl (List.all_eq_true.mp h2a c hc4)
          · rcases List.mem_cons.mp hc5 with rfl | hc6
            · exact Or.inr hsp
            · exact Or.inl (List.all_eq_true.mp h3a c hc6)
    obtain ⟨hp1, hp2⟩ := no_label_match_of_plain hplain
    have hm3 : p3At (d1 ++ (' ' :: (d2 ++ (' ' :: d3))))
        = some (d1 ++ (' ' :: d2) ++ (' ' :: d3),
                d1 ++ (' ' :: d2) ++ (' ' :: d3)) := by
      have hma := matchDigits_complete (' ' :: (d2 ++ (' ' :: d3))) h1l h1a
      have hg1 := optWsDigits_ws (' ' :: d3) hsp h2l h2a
      have hg2 := optWsDigits_ws ([] : List Char) hsp h3l h3a
      rw [List.append_nil] at hg2
      simp only [p3At, hma, hg1, hg2]
    have hfil : (d1 ++ (' ' :: d2) ++ (' ' :: d3)).filter isDigitCh
        = d1 ++ (d2 ++ d3) := by
      simp [List.filter_append, List.filter_cons, hspd, hf1, hf2, hf3,
        List.append_assoc]
    apply extract_of_p3 hp1 hp2
    rw [findFirst_head hm3]
    exact tryPattern_of_filter
      (by rw [List.append_assoc]; exact hd1ne ((' ' :: d2) ++ (' ' :: d3)))
      hfil hcatlen hcatall
  · -- concatenated groups
    obtain ⟨hp1, hp2⟩ := no_label_match_of_plain
      (fun c hc => Or.inl (List.all_eq_true.mp hcatall c hc))
    have hm3 : p3At (d1 ++ (d2 ++ d3))
        = some (d1 ++ d2 ++ d3, d1 ++ d2 ++ d3) := by
      have hma := matchDigits_complete (d2 ++ d3) h1l h1a
      have hg1 := optWsDigits_digits d3 h2ne h2l h2a
      have hg2 := optWsDigits_digits [] h3ne h3l h3a
      rw [List.append_nil] at hg2
      simp only [p3At, hma, hg1, hg2]
    have hfil : (d1 ++ d2 ++ d3).filter isDigitCh = d1 ++ (d2 ++ d3) := by
      simp [List.filter_append, hf1, hf2, hf3, List.append_assoc]
    apply extract_of_p3 hp1 hp2
    rw [findFirst_head hm3]
    exact tryPattern_of_filter
      (by rw [List.append_assoc]; exact hd1ne (d2 ++ d3))
      hfil hcatlen hcatall

/-- Witness for C3 at the spec's example `"1234 5678 9012"`. -/
theorem grouped_extraction_witness :
    extractAadhaarNumber ("1234".toList ++ (' ' :: ("5678".toList ++
      (' ' :: "9012".toList))))
      = some ("1234".toList ++ ("5678".toList ++ "9012".toList)) ∧
    extractAadhaarNumber ("1234".toList ++ ("5678".toList ++ "9012".toList))
      = some ("1234".toList ++ ("5678".toList ++ "9012".toList)) :=
  grouped_extraction ("1234".toList) ("5678".toList) ("9012".toList)
    (by decide) (by decide) (by decide) (by decide) (by decide) (by decide)

/-! ### The grouped pattern tolerates at most one whitespace per gap -/

theorem exists_cons_of_len4 {l : List Char} (h : l.length = 4) :
    ∃ x t, l = x :: t := by
  cases l with
  | nil => simp at h
  | cons x t => exact ⟨x, t, rfl⟩

theorem p3_tail_contra {w2 d3 o2 c rest : List Char}
    (E2 : w2 ++ d3 = o2 ++ (c ++ rest)) (ho : wsOpt o2)
    (hclen : c.length = 4) (hcall : c.all isDigitCh = true)
    (hw2 : w2.all isWs = true) (hlen : 2 ≤ w2.length) : False := by
  obtain ⟨x, y, w2'', rfl⟩ : ∃ x y t, w2 = x :: y :: t := by
    cases w2 with
    | nil => simp at hlen
    | cons x w' =>
      cases w' with
      | nil => simp at hlen
      | cons y t => exact ⟨x, y, t, rfl⟩
  obtain ⟨γ, c', rfl⟩ := exists_cons_of_len4 hclen
  simp only [List.all_cons, Bool.and_eq_true] at hw2 hcall
  obtain ⟨hx, hy, -⟩ := hw2
  obtain ⟨hγ, -⟩ := hcall
  rcases ho with rfl | ⟨w, rfl, hwws⟩
  · simp only [List.cons_append, List.nil_append, List.cons.injEq] at E2
    rw [← E2.1] at hγ
    rw [ws_not_digit hx] at hγ
    exact Bool.noConfusion hγ
  · simp only [List.cons_append, List.singleton_append, List.nil_append,
      List.cons.injEq] at E2
    rw [← E2.2.1] at hγ
    rw [ws_not_digit hy] at hγ
    exact Bool.noConfusion hγ

/-- C10: a grouped input whose adjacent 4-digit blocks are separated by two
or more whitespace characters is rejected even though stripping non-digits
leaves exactly 12 digits: `(\d{4}\s?\d{4}\s?\d{4})` allows at most one
whitespace character between blocks, and no other pattern applies. -/
theorem grouped_double_space_rejected (d1 d2 d3 w1 w2 : List Char)
    (h1l : d1.length = 4) (h1a : d1.all isDigitCh = true)
    (h2l : d2.length = 4) (h2a : d2.all isDigitCh = true)
    (h3l : d3.length = 4) (h3a : d3.all isDigitCh = true)
    (hw1 : w1.all isWs = true) (hw2 : w2.all isWs = true)
    (hgap : 2 ≤ w1.length ∨ 2 ≤ w2.length) :
    extractAadhaarNumber (d1 ++ (w1 ++ (d2 ++ (w2 ++ d3)))) = none := by
  have hplain : ∀ c ∈ d1 ++ (w1 ++ (d2 ++ (w2 ++ d3))),
      isDigitCh c = true ∨ isWs c = true := by
    intro c hc
    rcases List.mem_append.mp hc with h | h
    · exact Or.inl (List.all_eq_true.mp h1a c h)
    · rcases List.mem_append.mp h with h | h
      · exact Or.inr (List.all_eq_true.mp hw1 c h)
      · rcases List.mem_append.mp h with h | h
        · exact Or.inl (List.all_eq_true.mp h2a c h)
        · rcases List.mem_append.mp h with h | h
          · exact Or.inr (List.all_eq_true.mp hw2 c h)
          · exact Or.inl (List.all_eq_true.mp h3a c h)
  obtain ⟨hp1, hp2⟩ := no_label_match_of_plain hplain
  have hdc : dcount (d1 ++ (w1 ++ (d2 ++ (w2 ++ d3)))) = 12 := by
    rw [dcount_append, dcount_append, dcount_append, dcount_append,
      dcount_all_digits h1a, dcount_all_digits h2a, dcount_all_digits h3a,
      dcount_all_ws hw1, dcount_all_ws hw2, h1l, h2l, h3l]
  have hp3 : findFirst p3At (d1 ++ (w1 ++ (d2 ++ (w2 ++ d3)))) = none := by
    cases hff : findFirst p3At (d1 ++ (w1 ++ (d2 ++ (w2 ++ d3)))) with
    | none => rfl
    | some res =>
      exfalso
      obtain ⟨m0, m1⟩ := res
      obtain ⟨t, hsuf, hat⟩ := findFirst_sound hff
      obtain ⟨a, g1, g2, rest, ht, hm1, halen, haall,
        ⟨o1, b, hg1, ho1, hblen, hball⟩, ⟨o2, c, hg2, ho2, hclen, hcall⟩⟩ :=
        p3At_sound hat
      obtain ⟨P, hP⟩ := hsuf
      have hdct : dcount t = 12 + dcount rest := by
        rw [ht, hg1, hg2, dcount_append, dcount_append, dcount_append,
          dcount_append, dcount_append, dcount_all_digits haall,
          dcount_all_digits hball, dcount_all_digits hcall, dcount_wsOpt ho1,
          dcount_wsOpt ho2, halen, hblen, hclen]
        omega
      have hsum := congrArg dcount hP
      rw [dcount_append, hdc, hdct] at hsum
      have hdcP : dcount P = 0 := by omega
      have hPnil : P = [] := by
        cases P with
        | nil => rfl
        | cons p P' =>
          exfalso
          obtain ⟨δ, d1', hd1⟩ := exists_cons_of_len4 h1l
          rw [hd1] at hP
          simp only [List.cons_append, List.cons.injEq] at hP
          have hpd : isDigitCh p = true := by
            rw [hP.1]
            exact List.all_eq_true.mp h1a δ (by rw [hd1]; simp)
          simp [dcount, List.filter_cons, hpd] at hdcP
      subst hPnil
      simp only [List.nil_append] at hP
      have hSeq : d1 ++ (w1 ++ (d2 ++ (w2 ++ d3)))
          = a ++ (g1 ++ (g2 ++ rest)) := by rw [← hP, ht]
      obtain ⟨-, hE1⟩ := List.append_inj hSeq (by rw [h1l, halen])
      rw [hg1, hg2, List.append_assoc o1 b, List.append_assoc o2 c] at hE1
      rcases ho1 with rfl | ⟨wa, rfl, hwa⟩
      · simp only [List.nil_append] at hE1
        cases w1 with
        | cons x w1' =>
          obtain ⟨β, b', hb⟩ := exists_cons_of_len4 hblen
          rw [hb] at hE1
          simp only [List.cons_append, List.cons.injEq] at hE1
          have hxw : isWs x = true := List.all_eq_true.mp hw1 x (by simp)
          have hβ : isDigitCh β = true :=
            List.all_eq_true.mp hball β (by rw [hb]; simp)
          rw [← hE1.1] at hβ
          rw [ws_not_digit hxw] at hβ
          exact Bool.noConfusion hβ
        | nil =>
          simp only [List.nil_append] at hE1
          obtain ⟨-, hE2⟩ := List.append_inj hE1 (by rw [h2l, hblen])
          have hw2len : 2 ≤ w2.length := by
            rcases hgap with h | h
            · simp at h
            · exact h
          exact p3_tail_contra hE2 ho2 hclen hcall hw2 hw2len
      · cases w1 with
        | nil =>
          simp only [List.nil_append, List.singleton_append] at hE1
          obtain ⟨δ2, d2', hd2⟩ := exists_cons_of_len4 h2l
          rw [hd2] at hE1
          simp only [List.cons_append, List.cons.injEq] at hE1
          have hδ2 : isDigitCh δ2 = true :=
            List.all_eq_true.mp h2a δ2 (by rw [hd2]; simp)
          rw [hE1.1] at hδ2
          rw [ws_not_digit hwa] at hδ2
          exact Bool.noConfusion hδ2
        | cons x w1' =>
          simp only [List.cons_append, List.singleton_append,
            List.nil_append, List.cons.injEq] at hE1
          obtain ⟨hxwa, hE1'⟩ := hE1
          cases w1' with
          | nil =>
            simp only [List.nil_append] at hE1'
            obtain ⟨-, hE2⟩ := List.append_inj hE1' (by rw [h2l, hblen])
            have hw2len : 2 ≤ w2.length := by
              rcases hgap with h | h
              · simp at h
              · exact h
            exact p3_tail_contra hE2 ho2 hclen hcall hw2 hw2len
          | cons y w1'' =>
            obtain ⟨β, b', hb⟩ := exists_cons_of_len4 hblen
            rw [hb] at hE1'
            simp only [List.cons_append, List.nil_append,
              List.cons.injEq] at hE1'
            have hyw : isWs y = true := List.all_eq_true.mp hw1 y (by simp)
            have hβ : isDigitCh β = true :=
              List.all_eq_true.mp hball β (by rw [hb]; simp)
            rw [← hE1'.1] at hβ
            rw [ws_not_digit hyw] at hβ
            exact Bool.noConfusion hβ
  have hp3try : tryPattern (findFirst p3At (d1 ++ (w1 ++ (d2 ++ (w2 ++ d3)))))
      = none := by rw [hp3]; rfl
  have hp4 : tryPattern (p4Whole (d1 ++ (w1 ++ (d2 ++ (w2 ++ d3))))) = none := by
    cases hp : p4Whole (d1 ++ (w1 ++ (d2 ++ (w2 ++ d3)))) with
    | none => rfl
    | some res =>
      exfalso
      obtain ⟨m0, m1⟩ := res
      obtain ⟨ht, hlen12, -⟩ := p4Whole_sound hp
      have hSlen := congrArg List.length ht
      simp only [List.length_append, h1l, h2l, h3l, hlen12] at hSlen
      omega
  exact extract_none_of_all hp1 hp2 hp3try hp4

/-- Witness for C10 at the concrete input `"1234  5678 9012"` (two spaces
in the first gap). -/
theorem grouped_double_space_rejected_witness :
    extractAadhaarNumber ("1234".toList ++ ("  ".toList ++
      ("5678".toList ++ (" ".toList ++ "9012".toList)))) = none :=
  grouped_double_space_rejected ("1234".toList) ("5678".toList)
    ("9012".toList) ("  ".toList) (" ".toList)
    (by decide) (by decide) (by decide) (by decide) (by decide) (by decide)
    (by decide) (by decide) (by decide)

/-! ### Session controller claims -/

theorem stopScanTimer_scanTimer (s : SessionState) :
    (stopScanTimer s).scanTimer = false := by
  unfold stopScanTimer
  cases hb : s.scanTimer <;> simp [hb]

theorem close_props (ok : Bool) (s : SessionState) :
    (closeQRScanner ok s).scannerAlive = false ∧
    (closeQRScanner ok s).qrModalVisible = false ∧
    (closeQRScanner ok s).scanResultVisible = false ∧
    (closeQRScanner ok s).errorVisible = false ∧
    (closeQRScanner ok s).statusMessage = "Ready to scan".toList ∧
    (closeQRScanner ok s).statusType = StatusType.info ∧
    (s.scannerAlive = true →
      (closeQRScanner ok s).html5QrCode = false ∧
      (closeQRScanner ok s).scanTimer = false ∧
      (closeQRScanner ok s).scanning = false) := by
  unfold closeQRScanner cleanup
  cases hA : s.scannerAlive <;> simp [hA, stopScanTimer_scanTimer]

theorem close_of_reset {s : SessionState} (ok : Bool)
    (h : s.scannerAlive = false) (h2 : s.qrModalVisible = false)
    (h3 : s.scanResultVisible = false) (h4 : s.errorVisible = false)
    (h5 : s.statusMessage = "Ready to scan".toList)
    (h6 : s.statusType = StatusType.info) :
    closeQRScanner ok s = s := by
  cases s
  unfold closeQRScanner
  simp only at h h2 h3 h4 h5 h6
  subst h h2 h3 h4 h5 h6
  simp

/-- C5: `closeQRScanner` is idempotent and safe from every state: after one
call the scanner object is gone (Idle: status line reset to
`Ready to scan`), the library handle, timer and scanning flag of a live
session are all cleared, and a second call (with any outcome of the
external stop) is the identity on the closed state. -/
theorem close_idempotent_idle (s : SessionState) (ok1 ok2 : Bool) :
    (closeQRScanner ok1 s).scannerAlive = false ∧
    (closeQRScanner ok1 s).statusMessage = "Ready to scan".toList ∧
    (closeQRScanner ok1 s).statusType = StatusType.info ∧
    (s.scannerAlive = true →
      (closeQRScanner ok1 s).html5QrCode = false ∧
      (closeQRScanner ok1 s).scanTimer = false ∧
      (closeQRScanner ok1 s).scanning = false) ∧
    closeQRScanner ok2 (closeQRScanner ok1 s) = closeQRScanner ok1 s := by
  obtain ⟨p1, p2, p3, p4, p5, p6, p7⟩ := close_props ok1 s
  exact ⟨p1, p5, p6, p7, close_of_reset ok2 p1 p2 p3 p4 p5 p6⟩

/-- Witness for C5 on a live scanning session. -/
theorem close_idempotent_idle_witness :
    (closeQRScanner true scanningState).scannerAlive = false ∧
    (closeQRScanner true scanningState).html5QrCode = false ∧
    (closeQRScanner true scanningState).scanning = false ∧
    closeQRScanner true (closeQRScanner true scanningState)
      = closeQRScanner true scanningState := by
  obtain ⟨p1, -, -, p4, p5⟩ := close_idempotent_idle scanningState true true
  obtain ⟨q1, -, q3⟩ := p4 rfl
  exact ⟨p1, q1, q3, p5⟩

theorem onScanError_fields (m : List Char) (s : SessionState) :
    (onScanError m s).scanning = s.scanning ∧
    (onScanError m s).scannedAadhaar = s.scannedAadhaar ∧
    (onScanError m s).scannedQRData = s.scannedQRData ∧
    (onScanError m s).errorVisible = s.errorVisible ∧
    (onScanError m s).scanResultVisible = s.scanResultVisible ∧
    ((onScanError m s).statusType = s.statusType ∨
      (onScanError m s).statusType = StatusType.warning) := by
  unfold onScanError updateStatus
  cases hsc : s.scanning
  · simp [hsc]
  · simp [hsc]
    split_ifs <;> simp [hsc]

/-- C6: while Scanning, any sequence of decode-error callbacks (in
particular per-frame `TransientDecodeMiss` reports) leaves the scanning
flag up, the stored result and raw-text record untouched, and never shows
the error panel or an error status: at most the status line changes to the
`No QR code detected` warning. -/
theorem transient_miss_stays_scanning (s : SessionState)
    (msgs : List (List Char)) (h : s.scanning = true) :
    (msgs.foldl (fun t m => onScanError m t) s).scanning = true ∧
    (msgs.foldl (fun t m => onScanError m t) s).scannedAadhaar
      = s.scannedAadhaar ∧
    (msgs.foldl (fun t m => onScanError m t) s).scannedQRData
      = s.scannedQRData ∧
    (msgs.foldl (fun t m => onScanError m t) s).errorVisible
      = s.errorVisible ∧
    (msgs.foldl (fun t m => onScanError m t) s).scanResultVisible
      = s.scanResultVisible ∧
    ((msgs.foldl (fun t m => onScanError m t) s).statusType = s.statusType ∨
      (msgs.foldl (fun t m => onScanError m t) s).statusType
        = StatusType.warning) := by
  induction msgs generalizing s with
  | nil => exact ⟨h, rfl, rfl, rfl, rfl, Or.inl rfl⟩
  | cons m ms ih =>
    simp only [List.foldl_cons]
    obtain ⟨f1, f2, f3, f4, f5, f6⟩ := onScanError_fields m s
    obtain ⟨g1, g2, g3, g4, g5, g6⟩ := ih (onScanError m s) (f1.trans h)
    refine ⟨g1, g2.trans f2, g3.trans f3, g4.trans f4, g5.trans f5, ?_⟩
    rcases g6 with g6 | g6
    · rcases f6 with f6 | f6
      · exact Or.inl (g6.trans f6)
      · exact Or.inr (g6.trans f6)
    · exact Or.inr g6

/-- Witness for C6: two frame misses against the live scanning session. -/
theorem transient_miss_stays_scanning_witness :
    scanningState.scanning = true ∧
    ((["a NotFoundException b".toList, "zxing NotFoundException".toList].foldl
      (fun t m => onScanError m t) scanningState).scanning = true ∧
     (["a NotFoundException b".toList, "zxing NotFoundException".toList].foldl
      (fun t m => onScanError m t) scanningState).scannedAadhaar
        = scanningState.scannedAadhaar ∧
     (["a NotFoundException b".toList, "zxing NotFoundException".toList].foldl
      (fun t m => onScanError m t) scanningState).errorVisible
        = scanningState.errorVisible) := by
  have h := transient_miss_stays_scanning scanningState
    ["a NotFoundException b".toList, "zxing NotFoundException".toList] rfl
  exact ⟨rfl, h.1, h.2.1, h.2.2.2.1⟩

/-- C7 counterexample: the claim says an `InvalidPayload` during a live
session is surfaced only as a status-line notification with no
title-and-message error display, but `onScanSuccess` calls `showError`,
which fills and shows the error panel with title `Invalid QR Code`. -/
theorem invalid_payload_error_panel_counterexample :
    scanningState.scanning = true ∧
    extractAadhaarNumber ("hello".toList) = none ∧
    (onScanSuccess true ("hello".toList) scanningState).errorVisible = true ∧
    (onScanSuccess true ("hello".toList) scanningState).errorTitle
      = "Invalid QR Code".toList ∧
    (onScanSuccess true ("hello".toList) scanningState).statusType
      = StatusType.error := by
  refine ⟨rfl, by decide, ?_, ?_, ?_⟩ <;> decide

/-- C7 (amended): on an `InvalidPayload` while Scanning the code shows the
fatal-style error panel (title `Invalid QR Code`, error status), but the
session itself keeps scanning: the camera is not stopped, the stored result
and result panel are untouched, and the scheduled 2-second timeout restores
the `Scanning...` status line. -/
theorem invalid_payload_keeps_scanning (s : SessionState) (text : List Char)
    (stopOk : Bool) (hscan : s.scanning = true)
    (hex : extractAadhaarNumber text = none) :
    (onScanSuccess stopOk text s).scanning = true ∧
    (onScanSuccess stopOk text s).errorVisible = true ∧
    (onScanSuccess stopOk text s).errorTitle = "Invalid QR Code".toList ∧
    (onScanSuccess stopOk text s).statusType = StatusType.error ∧
    (onScanSuccess stopOk text s).scannedAadhaar = s.scannedAadhaar ∧
    (onScanSuccess stopOk text s).scanResultVisible = s.scanResultVisible ∧
    (scanResumeTimeout (onScanSuccess stopOk text s)).statusMessage
      = "Scanning...".toList ∧
    (scanResumeTimeout (onScanSuccess stopOk text s)).statusType
      = StatusType.scanning ∧
    (scanResumeTimeout (onScanSuccess stopOk text s)).scanning = true := by
  unfold onScanSuccess
  simp only [hex]
  simp [showError, updateStatus, scanResumeTimeout, hscan]

/-- Witness for C7 (amended) at the live session and a non-Aadhaar text. -/
theorem invalid_payload_keeps_scanning_witness :
    (onScanSuccess true ("hello".toList) scanningState).scanning = true ∧
    (onScanSuccess true ("hello".toList) scanningState).scannedAadhaar
      = scanningState.scannedAadhaar ∧
    (scanResumeTimeout (onScanSuccess true ("hello".toList) scanningState)).statusType
      = StatusType.scanning := by
  have h := invalid_payload_keeps_scanning scanningState ("hello".toList) true
    rfl (by decide)
  exact ⟨h.1, h.2.2.2.2.1, h.2.2.2.2.2.2.2.1⟩

/-- C8: evaluation at the failing input.  A decode-success callback that
arrives after the session has stopped scanning is NOT discarded:
`onScanSuccess` has no scanning guard, so it stores the late result in the
`window` globals and shows the result panel; only `onScanError` is guarded
(`if (!this.scanning) return`). -/
theorem late_decode_callback_updates_state :
    stoppedState.scanning = false ∧
    stoppedState.scannedAadhaar = none ∧
    stoppedState.scanResultVisible = false ∧
    (onScanSuccess true ("123456789012".toList) stoppedState).scannedAadhaar
      = some ("123456789012".toList) ∧
    (onScanSuccess true ("123456789012".toList) stoppedState).scannedQRData
      = some ("123456789012".toList) ∧
    (onScanSuccess true ("123456789012".toList) stoppedState).scanResultVisible
      = true ∧
    onScanError ("NotFoundException: no code".toList) stoppedState
      = stoppedState := by
  refine ⟨rfl, rfl, rfl, ?_, ?_, ?_, ?_⟩ <;> decide

/-- C9 counterexample: the claim says a failed switch surfaces only a
non-blocking diagnostic and leaves the prior state (Scanning on the old
camera) intact; in the code a start failure lands in `startCamera`'s catch,
which shows the fatal error panel (`Camera Start Failed`), and the session
is left stopped with the camera id already switched to the new device. -/
theorem switch_failure_counterexample :
    scanningState.scanning = true ∧
    scanningState.cameraId = "cam1".toList ∧
    scanningState.errorVisible = false ∧
    (switchCamera true false ("cam2".toList) scanningState).errorVisible
      = true ∧
    (switchCamera true false ("cam2".toList) scanningState).errorTitle
      = "Camera Start Failed".toList ∧
    (switchCamera true false ("cam2".toList) scanningState).scanning = false ∧
    (switchCamera true false ("cam2".toList) scanningState).cameraId
      = "cam2".toList := by
  refine ⟨rfl, rfl, rfl, ?_, ?_, ?_, ?_⟩ <;> decide

/-- C9 (amended): `switchCamera` is a no-op unless the session is Scanning
(or when the new id is empty); while Scanning it stops the current camera
and starts the new one, ending Scanning on the new device when the start
succeeds; when the start fails it shows the `Camera Start Failed` error
panel and leaves the session stopped with the camera id already switched:
the prior state is not restored. -/
theorem switchCamera_behavior :
    (∀ (s : SessionState) (newId : List Char) (ok1 ok2 : Bool),
      s.scanning = false → switchCamera ok1 ok2 newId s = s) ∧
    (∀ (s : SessionState) (newId : List Char),
      newId ≠ [] → s.scanning = true → s.html5QrCode = true →
      (switchCamera true true newId s).scanning = true ∧
      (switchCamera true true newId s).cameraId = newId ∧
      (switchCamera true true newId s).statusMessage
        = "Scanning...".toList ∧
      (switchCamera true true newId s).statusType = StatusType.scanning) ∧
    (∀ (s : SessionState) (newId : List Char),
      newId ≠ [] → s.scanning = true → s.html5QrCode = true →
      (switchCamera true false newId s).errorVisible = true ∧
      (switchCamera true false newId s).errorTitle
        = "Camera Start Failed".toList ∧
      (switchCamera true false newId s).scanning = false ∧
      (switchCamera true false newId s).cameraId = newId) := by
  refine ⟨?_, ?_, ?_⟩
  · intro s newId ok1 ok2 hsc
    unfold switchCamera
    rw [if_pos (by simp [hsc])]
  · intro s newId hne hsc hq
    have hie : newId.isEmpty = false := by
      cases newId with
      | nil => exact absurd rfl hne
      | cons _ _ => rfl
    cases hst : s.scanTimer <;>
      simp [switchCamera, stopCamera, startCamera, startScanTimer,
        stopScanTimer, updateStatus, showError, hie, hsc, hq, hst]
  · intro s newId hne hsc hq
    have hie : newId.isEmpty = false := by
      cases newId with
      | nil => exact absurd rfl hne
      | cons _ _ => rfl
    cases hst : s.scanTimer <;>
      simp [switchCamera, stopCamera, startCamera, startScanTimer,
        stopScanTimer, updateStatus, showError, hie, hsc, hq, hst]

/-- Witness for C9 (amended): the no-op, success and failure clauses at the
concrete states. -/
theorem switchCamera_behavior_witness :
    switchCamera true true ("cam2".toList) stoppedState = stoppedState ∧
    (switchCamera true true ("cam2".toList) scanningState).scanning = true ∧
    (switchCamera true true ("cam2".toList) scanningState).cameraId
      = "cam2".toList ∧
    (switchCamera true false ("cam2".toList) scanningState).scanning
      = false := by
  have h1 := switchCamera_behavior.1 stoppedState ("cam2".toList) true true rfl
  have h2 := switchCamera_behavior.2.1 scanningState ("cam2".toList)
    (by decide) rfl rfl
  have h3 := switchCamera_behavior.2.2 scanningState ("cam2".toList)
    (by decide) rfl rfl
  exact ⟨h1, h2.1, h2.2.1, h3.2.2.1⟩
